import Mathlib

/-!
Shallow embedding of `src/osgEarthFeatures/FeatureGridder.cpp` (osgEarth
feature gridder).  C++ `double` values are modelled as exact rationals
(`ℚ`), C++ `int` as `ℤ` (the code never exercises overflow on the inputs
the spec discusses), and the boolean-plus-output-parameter idiom of
`getCellBounds` as `Option`.  The GEOS overlay engine is an external
library; it is modelled as an opaque oracle together with an explicit
allocation state, so that the control flow (keep/drop per feature) and
the resource obligations (which engine geometries get destroyed) of
`cullFeatureListToCell` are captured exactly as in the source.
-/

namespace FeatureGridderModel

/-- DBL_MAX, the `optional<double>` default for `GriddingPolicy::_cellSize`
(see `GriddingPolicy::GriddingPolicy`, line 44), modelled as the exact
rational value of the largest finite IEEE-754 double. -/
def DBL_MAX : ℚ := (2 ^ 53 - 1) * 2 ^ 971

/-- Axis-aligned rectangle `osgEarth::Bounds(xmin, ymin, xmax, ymax)`. -/
structure Bounds where
  xMin : ℚ
  yMin : ℚ
  xMax : ℚ
  yMax : ℚ
deriving DecidableEq

def Bounds.width (b : Bounds) : ℚ := b.xMax - b.xMin

def Bounds.height (b : Bounds) : ℚ := b.yMax - b.yMin

/-- Modelled from the spec: `Bounds::contains(x, y)` is declared outside
this source file; the spec fixes it as the inclusive rectangle test
`xmin ≤ px ≤ xmax && ymin ≤ py ≤ ymax`. -/
def Bounds.contains (b : Bounds) (px py : ℚ) : Prop :=
  b.xMin ≤ px ∧ px ≤ b.xMax ∧ b.yMin ≤ py ∧ py ≤ b.yMax

instance (b : Bounds) (px py : ℚ) : Decidable (b.contains px py) :=
  inferInstanceAs (Decidable (_ ∧ _ ∧ _ ∧ _))

/-- Modelled from the spec: `osg::BoundingBox::center()` (used at line 179
via `featureGeom->getBounds().center()`) is external; the spec says it is
the bounding-box center. X coordinate. -/
def Bounds.centerX (b : Bounds) : ℚ := (b.xMin + b.xMax) / 2

/-- Bounding-box center, Y coordinate (see `Bounds.centerX`). -/
def Bounds.centerY (b : Bounds) : ℚ := (b.yMin + b.yMax) / 2

/-- `GriddingPolicy::CullingTechnique`. -/
inductive CullingTechnique where
  | CULL_BY_CENTROID
  | CULL_BY_CROPPING
deriving DecidableEq

/-- `GriddingPolicy`: each field is an osgEarth `optional<T>`, i.e. a
value that may be unset, with a per-field default returned by `value()`
when unset.  Only `cellSize` and `cullingTechnique` take part in the
gridding and culling math. -/
structure GriddingPolicy where
  cellSize : Option ℚ := none
  cullingTechnique : Option CullingTechnique := none
  spatializeGroups : Option Bool := none
  clusterCulling : Option Bool := none
deriving DecidableEq

/-- `optional<double>::value()` for `_cellSize`: the stored value when
set, else the default `DBL_MAX` (line 44). -/
def cellSizeValue (p : GriddingPolicy) : ℚ := p.cellSize.getD DBL_MAX

/-- `optional<CullingTechnique>::value()` for `_cullingTechnique`: the
stored value when set, else the default `CULL_BY_CENTROID` (line 45). -/
def cullingTechniqueValue (p : GriddingPolicy) : CullingTechnique :=
  p.cullingTechnique.getD CullingTechnique.CULL_BY_CENTROID

/-- `osg::clampAbove(v, lo)`: clamp `v` to be at least `lo`. -/
def osgClampAbove (v lo : ℤ) : ℤ := max v lo

/-- `osg::clampBelow(v, hi)`: clamp `v` to be at most `hi`. -/
def osgClampBelow (v hi : ℚ) : ℚ := min v hi

/-- The persistent state of `FeatureGridder`: the input bounds, the
(possibly normalized) policy, and the grid dimensions computed at
construction. -/
structure FeatureGridder where
  inputBounds : Bounds
  policy : GriddingPolicy
  cellsX : ℤ
  cellsY : ℤ
deriving DecidableEq

/-- `FeatureGridder::FeatureGridder(inputBounds, policy)` (lines 97-128).
`haveGeos` stands for the compile-time flag `OSGEARTH_HAVE_GEOS`; when it
is false and the policy requests `CULL_BY_CROPPING`, the stored policy is
downgraded to `CULL_BY_CENTROID` with a warning (lines 116-127).  Returns
the constructed gridder together with whether that warning was emitted. -/
def mkFeatureGridder (inputBounds : Bounds) (policy : GriddingPolicy)
    (haveGeos : Bool) : FeatureGridder × Bool :=
  let cellsX0 : ℤ :=
    if policy.cellSize.isSome = true ∧ 0 < cellSizeValue policy then
      ⌈inputBounds.width / cellSizeValue policy⌉
    else 1
  let cellsY0 : ℤ :=
    if policy.cellSize.isSome = true ∧ 0 < cellSizeValue policy then
      ⌈inputBounds.height / cellSizeValue policy⌉
    else 1
  let cellsX := osgClampAbove cellsX0 1
  let cellsY := osgClampAbove cellsY0 1
  let downgrade :=
    haveGeos = false ∧ policy.cullingTechnique.isSome = true ∧
      cullingTechniqueValue policy = CullingTechnique.CULL_BY_CROPPING
  if downgrade then
    ({ inputBounds := inputBounds,
       policy := { policy with
                   cullingTechnique := some CullingTechnique.CULL_BY_CENTROID },
       cellsX := cellsX, cellsY := cellsY }, true)
  else
    ({ inputBounds := inputBounds, policy := policy,
       cellsX := cellsX, cellsY := cellsY }, false)

/-- `FeatureGridder::getNumCells()` (lines 135-139). -/
def getNumCells (g : FeatureGridder) : ℤ := g.cellsX * g.cellsY

/-- `FeatureGridder::getCellBounds(i, output)` (lines 141-158); the C++
`bool` result plus output parameter becomes `Option Bounds`.  `%` and `/`
here are Lean's Euclidean operations, which agree with the C++ truncating
ones because the guard ensures `i ≥ 0` and `cellsX ≥ 1`. -/
def getCellBounds (g : FeatureGridder) (i : ℤ) : Option Bounds :=
  if 0 ≤ i ∧ i < g.cellsX * g.cellsY then
    let x : ℤ := i % g.cellsX
    let y : ℤ := i / g.cellsX
    let cs := cellSizeValue g.policy
    some { xMin := g.inputBounds.xMin + cs * (x : ℚ)
         , yMin := g.inputBounds.yMin + cs * (y : ℚ)
         , xMax := osgClampBelow (g.inputBounds.xMin + cs * ((x : ℚ) + 1))
                     g.inputBounds.xMax
         , yMax := osgClampBelow (g.inputBounds.yMin + cs * ((y : ℚ) + 1))
                     g.inputBounds.yMax }
  else none

/-- Modelled from the spec: `Geometry` is external, consumed opaquely
through its bounding-box accessor `getBounds()` and the validity check
`isValid()`.  `tag` separates distinct geometries with equal boxes. -/
structure Geometry where
  tag : ℕ := 0
  bounds : Bounds
  isValid : Bool := true
deriving DecidableEq

/-- Modelled from the spec: a `Feature` is an opaque record with an
identifier/attributes and a geometry slot (which may be empty). -/
structure Feature where
  fid : ℕ
  geometry : Option Geometry
deriving DecidableEq

/-- Allocation state of the GEOS overlay engine: engine geometries are
native objects the caller must explicitly destroy; we track them as
numbered handles with a live set. -/
structure EngineState where
  nextId : ℕ
  live : List ℕ
deriving DecidableEq

/-- Behaviour oracle for the external GEOS engine during one
`cullFeatureListToCell` call: whether `GEOSUtils::importGeometry`
succeeds on a given native geometry, whether
`OverlayOp::overlayOp(..., opINTERSECTION)` against the cell rectangle
returns a result (rather than throwing or returning null), and what
`GEOSUtils::exportGeometry` yields for that feature's clipped result. -/
structure OverlayEngine where
  importOk : Geometry → Bool
  overlayOk : Geometry → Bool
  exported : Geometry → Option Geometry

/-- Allocate a fresh engine geometry handle. -/
def allocGeom (st : EngineState) : ℕ × EngineState :=
  (st.nextId, { nextId := st.nextId + 1, live := st.nextId :: st.live })

/-- `GeometryFactory::destroyGeometry`: release an engine geometry. -/
def destroyGeom (h : ℕ) (st : EngineState) : EngineState :=
  { st with live := st.live.erase h }

/-- `GEOSUtils::importGeometry(g)`: on success allocates an engine
geometry and returns its handle, otherwise returns null (`none`). -/
def importGeometry (eng : OverlayEngine) (g : Geometry) (st : EngineState) :
    Option ℕ × EngineState :=
  if eng.importOk g then
    let (h, st') := allocGeom st
    (some h, st')
  else (none, st)

/-- `OverlayOp::overlayOp(inGeom, cropGeom, opINTERSECTION)` wrapped in
the source's try/catch (lines 221-229): `none` covers both a thrown
exception and a null result; on success a fresh engine geometry is
allocated.  The oracle is keyed on the feature's native geometry since
the cell rectangle is fixed for the whole call. -/
def overlayOp (eng : OverlayEngine) (featureGeom : Geometry)
    (st : EngineState) : Option ℕ × EngineState :=
  if eng.overlayOk featureGeom then
    let (h, st') := allocGeom st
    (some h, st')
  else (none, st)

/-- `GEOSUtils::exportGeometry(outGeom)`: produces a native geometry (or
null); creates no engine-owned memory. -/
def exportGeometry (eng : OverlayEngine) (featureGeom : Geometry) :
    Option Geometry := eng.exported featureGeom

/-- The 4-corner cell rectangle polygon built from the cell bounds at
lines 201-205; its bounding box is the cell bounds and it is valid. -/
def cellPolygon (b : Bounds) : Geometry :=
  { tag := 0, bounds := b, isValid := true }

/-- One iteration of the `CULL_BY_CROPPING` loop body (lines 209-247) for
a single feature: import the feature's geometry, intersect it with the
cell rectangle, destroy the overlay result handle after exporting it, and
keep the feature (with geometry replaced by the export) only when the
export is non-null and valid.  Returns the kept feature (or `none` when
the feature is dropped) and the updated engine state.  Note the imported
`inGeom` handle is not destroyed anywhere in the body, exactly as in the
source. -/
def cropFeature (eng : OverlayEngine) (feature : Feature)
    (st : EngineState) : Option Feature × EngineState :=
  match feature.geometry with
  | none => (none, st)
  | some featureGeom =>
    match importGeometry eng featureGeom st with
    | (none, st₁) => (none, st₁)
    | (some _inGeom, st₁) =>
      match overlayOp eng featureGeom st₁ with
      | (none, st₂) => (none, st₂)
      | (some outGeom, st₂) =>
        let exportedGeom := exportGeometry eng featureGeom
        let st₃ := destroyGeom outGeom st₂
        match exportedGeom with
        | some newGeom =>
          if newGeom.isValid then
            (some { feature with geometry := some newGeom }, st₃)
          else (none, st₃)
        | none => (none, st₃)

/-- The `CULL_BY_CROPPING` iterate-and-erase loop over the feature list
(lines 209-248): dropped features are erased, kept features remain in
order, and the engine state threads through every iteration. -/
def cropLoop (eng : OverlayEngine) :
    List Feature → EngineState → List Feature × EngineState
  | [], st => ([], st)
  | feature :: rest, st =>
    match cropFeature eng feature st with
    | (some kept, st') =>
      let (survivors, st'') := cropLoop eng rest st'
      (kept :: survivors, st'')
    | (none, st') => cropLoop eng rest st'

/-- The `CULL_BY_CENTROID` iterate-and-erase loop (lines 171-190): a
feature is kept iff it has a geometry whose bounding-box center is
contained in the cell bounds; otherwise it is erased. -/
def centroidLoop (b : Bounds) : List Feature → List Feature
  | [] => []
  | feature :: rest =>
    let keepFeature : Bool :=
      match feature.geometry with
      | some featureGeom =>
        decide (b.contains featureGeom.bounds.centerX featureGeom.bounds.centerY)
      | none => false
    if keepFeature then feature :: centroidLoop b rest
    else centroidLoop b rest

/-- `FeatureGridder::cullFeatureListToCell(i, features)` (lines 160-266).
Returns the C++ `bool` result, the mutated feature list, and the engine
state.  `haveGeos` is the `OSGEARTH_HAVE_GEOS` compile flag: without it
the `CULL_BY_CROPPING` branch is empty (lines 193-255 compile away), so
the list is left untouched.  When `getCellBounds` fails (invalid index)
nothing happens and `success` (initialized `true` and never written) is
returned. -/
def cullFeatureListToCell (g : FeatureGridder) (haveGeos : Bool)
    (eng : OverlayEngine) (i : ℤ) (features : List Feature)
    (st : EngineState) : Bool × List Feature × EngineState :=
  let success := true
  match getCellBounds g i with
  | some b =>
    if cullingTechniqueValue g.policy = CullingTechnique.CULL_BY_CENTROID then
      (success, centroidLoop b features, st)
    else
      if haveGeos then
        let (cropGeom, st₁) := importGeometry eng (cellPolygon b) st
        let (survivors, st₂) := cropLoop eng features st₁
        let st₃ :=
          match cropGeom with
          | some h => destroyGeom h st₂
          | none => st₂
        (success, survivors, st₃)
      else (success, features, st)
  | none => (success, features, st)

/-- Spec-side predicate, written from the spec's words for comparison
with the source loop `centroidLoop`: under BY_CENTROID a feature is kept
iff it has a geometry and the center of that geometry's bounding box lies
within the cell bounds under the inclusive containment test
`xmin ≤ px ≤ xmax ∧ ymin ≤ py ≤ ymax`; a feature with no geometry is
dropped. -/
def centroidKeepSpec (b : Bounds) (feature : Feature) : Bool :=
  match feature.geometry with
  | some geo =>
    decide (b.xMin ≤ (geo.bounds.xMin + geo.bounds.xMax) / 2 ∧
            (geo.bounds.xMin + geo.bounds.xMax) / 2 ≤ b.xMax ∧
            b.yMin ≤ (geo.bounds.yMin + geo.bounds.yMax) / 2 ∧
            (geo.bounds.yMin + geo.bounds.yMax) / 2 ≤ b.yMax)
  | none => false

/-- Spec-side per-feature outcome of the BY_CROPPING path, written from
the spec's words for comparison with the source loop `cropLoop`: a
feature with no geometry is dropped; a failed import drops it; a
failed/throwing overlay drops it; a missing or invalid exported clip
result drops it; otherwise the feature is kept with its geometry replaced
by the clipped result. -/
def cropKeepSpec (eng : OverlayEngine) (feature : Feature) : Option Feature :=
  match feature.geometry with
  | none => none
  | some geo =>
    if eng.importOk geo then
      if eng.overlayOk geo then
        match eng.exported geo with
        | some newGeom =>
          if newGeom.isValid then
            some { feature with geometry := some newGeom }
          else none
        | none => none
      else none
    else none

/-- The containment half of spec §8's grid property: every cell rectangle
returned by `getCellBounds` is contained in the input extent, as point
sets under the inclusive rectangle membership. -/
def cellsWithinExtent (g : FeatureGridder) : Prop :=
  ∀ i r, getCellBounds g i = some r →
    ∀ px py, r.contains px py → g.inputBounds.contains px py

/-- The coverage half of spec §8's grid property: every point of the
input extent lies in some cell rectangle (no gaps). -/
def cellsCoverExtent (g : FeatureGridder) : Prop :=
  ∀ px py, g.inputBounds.contains px py →
    ∃ i r, getCellBounds g i = some r ∧ r.contains px py

/-- Concrete extent `(0,0)-(10,10)` from spec §8's worked example. -/
def sampleBounds : Bounds := { xMin := 0, yMin := 0, xMax := 10, yMax := 10 }

/-- Policy with `cellSize = 5` and centroid culling. -/
def samplePolicy5 : GriddingPolicy :=
  { cellSize := some 5,
    cullingTechnique := some CullingTechnique.CULL_BY_CENTROID }

/-- Gridder over `sampleBounds` with `samplePolicy5` (GEOS present). -/
def sampleGridder : FeatureGridder :=
  (mkFeatureGridder sampleBounds samplePolicy5 true).1

/-- Policy whose cell size is explicitly set to the non-positive value 0. -/
def zeroPolicy : GriddingPolicy := { cellSize := some 0 }

/-- Gridder over `sampleBounds` with the zero cell size set. -/
def zeroGridder : FeatureGridder :=
  (mkFeatureGridder sampleBounds zeroPolicy true).1

/-- Policy with every field unset (cell size defaults to `DBL_MAX`). -/
def unsetPolicy : GriddingPolicy := {}

/-- Gridder over `sampleBounds` with the unset policy. -/
def unsetGridder : FeatureGridder :=
  (mkFeatureGridder sampleBounds unsetPolicy true).1

/-- Policy with `cellSize = 5` and cropping culling. -/
def cropPolicy5 : GriddingPolicy :=
  { cellSize := some 5,
    cullingTechnique := some CullingTechnique.CULL_BY_CROPPING }

/-- Gridder over `sampleBounds` with `cropPolicy5` (GEOS present). -/
def cropGridder : FeatureGridder :=
  (mkFeatureGridder sampleBounds cropPolicy5 true).1

/-- A feature whose geometry's bounding box is `(5,5)-(7,7)`, so its
center is `(6,6)`. -/
def featA : Feature :=
  { fid := 0,
    geometry := some { tag := 0, bounds := ⟨5, 5, 7, 7⟩, isValid := true } }

/-- A feature with no geometry. -/
def featB : Feature := { fid := 1, geometry := none }

/-- An engine whose import and overlay always succeed and whose export
returns the feature's own geometry, valid. -/
def idEngine : OverlayEngine :=
  { importOk := fun _ => true, overlayOk := fun _ => true,
    exported := fun g => some g }

/-- An engine whose imports succeed but whose overlay always fails. -/
def noOverlayEngine : OverlayEngine :=
  { importOk := fun _ => true, overlayOk := fun _ => false,
    exported := fun _ => none }

/-- The empty engine allocation state. -/
def st0 : EngineState := { nextId := 0, live := [] }

/-! Helper lemmas shared by several claims. -/

theorem mkFeatureGridder_inputBounds (b : Bounds) (p : GriddingPolicy)
    (hg : Bool) : (mkFeatureGridder b p hg).1.inputBounds = b := by
  unfold mkFeatureGridder
  simp only [apply_ite (fun x : FeatureGridder × Bool => x.1.inputBounds),
    ite_self]

theorem mkFeatureGridder_cellSize (b : Bounds) (p : GriddingPolicy)
    (hg : Bool) : (mkFeatureGridder b p hg).1.policy.cellSize = p.cellSize := by
  unfold mkFeatureGridder
  simp only [apply_ite (fun x : FeatureGridder × Bool => x.1.policy.cellSize),
    ite_self]

theorem mkFeatureGridder_cellsX (b : Bounds) (p : GriddingPolicy) (hg : Bool) :
    (mkFeatureGridder b p hg).1.cellsX =
      osgClampAbove
        (if p.cellSize.isSome = true ∧ 0 < cellSizeValue p then
          ⌈b.width / cellSizeValue p⌉ else 1) 1 := by
  unfold mkFeatureGridder
  simp only [apply_ite (fun x : FeatureGridder × Bool => x.1.cellsX),
    ite_self]

theorem mkFeatureGridder_cellsY (b : Bounds) (p : GriddingPolicy) (hg : Bool) :
    (mkFeatureGridder b p hg).1.cellsY =
      osgClampAbove
        (if p.cellSize.isSome = true ∧ 0 < cellSizeValue p then
          ⌈b.height / cellSizeValue p⌉ else 1) 1 := by
  unfold mkFeatureGridder
  simp only [apply_ite (fun x : FeatureGridder × Bool => x.1.cellsY),
    ite_self]

theorem sampleGridder_eq :
    sampleGridder =
      { inputBounds := sampleBounds, policy := samplePolicy5,
        cellsX := 2, cellsY := 2 } := by
  have hx : ⌈sampleBounds.width / (5 : ℚ)⌉ = 2 := by
    norm_num [sampleBounds, Bounds.width]
  have hy : ⌈sampleBounds.height / (5 : ℚ)⌉ = 2 := by
    norm_num [sampleBounds, Bounds.height]
  unfold sampleGridder mkFeatureGridder
  norm_num [samplePolicy5, cellSizeValue, cullingTechniqueValue, DBL_MAX,
    osgClampAbove, hx, hy]

theorem cropGridder_eq :
    cropGridder =
      { inputBounds := sampleBounds, policy := cropPolicy5,
        cellsX := 2, cellsY := 2 } := by
  have hx : ⌈sampleBounds.width / (5 : ℚ)⌉ = 2 := by
    norm_num [sampleBounds, Bounds.width]
  have hy : ⌈sampleBounds.height / (5 : ℚ)⌉ = 2 := by
    norm_num [sampleBounds, Bounds.height]
  unfold cropGridder mkFeatureGridder
  norm_num [cropPolicy5, cellSizeValue, cullingTechniqueValue, DBL_MAX,
    osgClampAbove, hx, hy]

theorem sample_cell3 :
    getCellBounds sampleGridder 3 = some ⟨5, 5, 10, 10⟩ := by
  rw [sampleGridder_eq]
  unfold getCellBounds
  rw [if_pos (by norm_num)]
  norm_num [samplePolicy5, cellSizeValue, osgClampBelow, sampleBounds]

theorem crop_cell0 :
    getCellBounds cropGridder 0 = some ⟨0, 0, 5, 5⟩ := by
  rw [cropGridder_eq]
  unfold getCellBounds
  rw [if_pos (by norm_num)]
  norm_num [cropPolicy5, cellSizeValue, osgClampBelow, sampleBounds]

/-! Claim theorems. -/

/-- C10: for every cell index `i` (valid or invalid) and every feature
list, `cullFeatureListToCell` returns `true`: the operation never reports
failure, for any input (the local `success` is initialized `true` and
never written). -/
theorem cullFeatureListToCell_reports_success (g : FeatureGridder)
    (hg : Bool) (eng : OverlayEngine) (i : ℤ) (features : List Feature)
    (st : EngineState) :
    (cullFeatureListToCell g hg eng i features st).1 = true := by
  unfold cullFeatureListToCell
  cases getCellBounds g i with
  | none => rfl
  | some b =>
    dsimp only []
    split
    · rfl
    · split
      · rfl
      · rfl

/-- C7: for every invalid cell index `i` (`i < 0` or `i ≥ cellCount()`)
and every feature list, `cullFeatureListToCell(i, features)` removes no
features, changes no geometry, touches no engine state, and still reports
success: a silent no-op. -/
theorem cull_invalid_index_noop (g : FeatureGridder) (hg : Bool)
    (eng : OverlayEngine) (i : ℤ) (features : List Feature)
    (st : EngineState) (h : i < 0 ∨ getNumCells g ≤ i) :
    cullFeatureListToCell g hg eng i features st = (true, features, st) := by
  have hnone : getCellBounds g i = none := by
    unfold getCellBounds
    rw [if_neg]
    unfold getNumCells at h
    omega
  unfold cullFeatureListToCell
  rw [hnone]

/-- C7 witness: index `-1` on the concrete sample gridder is a reported
success that returns the feature list and engine state untouched. -/
theorem cull_invalid_index_noop_witness :
    ((-1 : ℤ) < 0 ∨ getNumCells sampleGridder ≤ -1) ∧
      cullFeatureListToCell sampleGridder true idEngine (-1) [featA, featB]
        st0 = (true, [featA, featB], st0) :=
  ⟨Or.inl (by norm_num),
    cull_invalid_index_noop sampleGridder true idEngine (-1) [featA, featB]
      st0 (Or.inl (by norm_num))⟩

/-- C8: constructing a gridder with `cullingTechnique = CULL_BY_CROPPING`
while GEOS is absent stores a policy normalized to `CULL_BY_CENTROID`,
and the warning is emitted, once, by the constructor itself (lines
116-127): the stored policy is already normalized before any per-cell
call. -/
theorem mkFeatureGridder_downgrades_cropping (b : Bounds)
    (p : GriddingPolicy)
    (h : p.cullingTechnique = some CullingTechnique.CULL_BY_CROPPING) :
    (mkFeatureGridder b p false).1.policy.cullingTechnique =
        some CullingTechnique.CULL_BY_CENTROID ∧
      (mkFeatureGridder b p false).2 = true := by
  unfold mkFeatureGridder
  rw [if_pos ⟨rfl, by rw [h]; rfl, by rw [cullingTechniqueValue, h]; rfl⟩]
  exact ⟨rfl, rfl⟩

/-- C8 witness: the concrete cropping policy is downgraded when GEOS is
absent. -/
theorem mkFeatureGridder_downgrades_cropping_witness :
    cropPolicy5.cullingTechnique = some CullingTechnique.CULL_BY_CROPPING ∧
      (mkFeatureGridder sampleBounds cropPolicy5 false).1.policy.cullingTechnique
        = some CullingTechnique.CULL_BY_CENTROID ∧
      (mkFeatureGridder sampleBounds cropPolicy5 false).2 = true :=
  ⟨rfl, mkFeatureGridder_downgrades_cropping sampleBounds cropPolicy5 rfl⟩

/-- C2: `getCellBounds(i)` returns a not-found result exactly when `i`
is outside `[0, cellCount())`; for `i` in range it returns the rectangle
with `x = i mod cellsX`, `y = i / cellsX` (row-major),
`xmin = extentXmin + cellSize*x`, `ymin = extentYmin + cellSize*y`,
`xmax = min(extentXmin + cellSize*(x+1), extentXmax)`,
`ymax = min(extentYmin + cellSize*(y+1), extentYmax)`, where `cellSize`
is the policy's stored value (defaulting to `DBL_MAX` when unset). -/
theorem getCellBounds_formula (g : FeatureGridder) (i : ℤ) :
    (getCellBounds g i = none ↔ (i < 0 ∨ getNumCells g ≤ i)) ∧
    (0 ≤ i → i < getNumCells g →
      getCellBounds g i = some
        { xMin := g.inputBounds.xMin +
            cellSizeValue g.policy * ((i % g.cellsX : ℤ) : ℚ)
        , yMin := g.inputBounds.yMin +
            cellSizeValue g.policy * ((i / g.cellsX : ℤ) : ℚ)
        , xMax := min (g.inputBounds.xMin +
            cellSizeValue g.policy * (((i % g.cellsX : ℤ) : ℚ) + 1))
            g.inputBounds.xMax
        , yMax := min (g.inputBounds.yMin +
            cellSizeValue g.policy * (((i / g.cellsX : ℤ) : ℚ) + 1))
            g.inputBounds.yMax }) := by
  constructor
  · unfold getCellBounds getNumCells
    split
    · simp only [reduceCtorEq, false_iff]
      omega
    · simp only [true_iff]
      omega
  · intro h1 h2
    unfold getCellBounds
    rw [if_pos ⟨h1, by unfold getNumCells at h2; exact h2⟩]
    rfl

/-- C2 witness: on the concrete 2×2 gridder, cell 3 is `(5,5)-(10,10)`. -/
theorem getCellBounds_formula_witness :
    (0 : ℤ) ≤ 3 ∧ (3 : ℤ) < getNumCells sampleGridder ∧
      getCellBounds sampleGridder 3 = some ⟨5, 5, 10, 10⟩ := by
  have h3 : (3 : ℤ) < getNumCells sampleGridder := by
    rw [sampleGridder_eq]; norm_num [getNumCells]
  refine ⟨by norm_num, h3, ?_⟩
  rw [(getCellBounds_formula sampleGridder 3).2 (by norm_num) h3,
    sampleGridder_eq]
  norm_num [samplePolicy5, cellSizeValue, sampleBounds, min_def]

/-- C3: with `cellSize` set and strictly positive, the constructor
computes `cellsX = ceil(width/cellSize)` and
`cellsY = ceil(height/cellSize)`, each clamped to at least 1, and
`getNumCells` returns `cellsX * cellsY`. -/
theorem mkFeatureGridder_grid_dimensions (b : Bounds) (p : GriddingPolicy)
    (hg : Bool) (cs : ℚ) (hset : p.cellSize = some cs) (hpos : 0 < cs) :
    (mkFeatureGridder b p hg).1.cellsX = max ⌈b.width / cs⌉ 1 ∧
    (mkFeatureGridder b p hg).1.cellsY = max ⌈b.height / cs⌉ 1 ∧
    getNumCells (mkFeatureGridder b p hg).1 =
      (mkFeatureGridder b p hg).1.cellsX *
        (mkFeatureGridder b p hg).1.cellsY := by
  have hv : cellSizeValue p = cs := by unfold cellSizeValue; rw [hset]; rfl
  have hcond : p.cellSize.isSome = true ∧ 0 < cellSizeValue p :=
    ⟨by rw [hset]; rfl, by rw [hv]; exact hpos⟩
  refine ⟨?_, ?_, rfl⟩
  · rw [mkFeatureGridder_cellsX, if_pos hcond, hv]; rfl
  · rw [mkFeatureGridder_cellsY, if_pos hcond, hv]; rfl

/-- C3 witness: `cellSize = 5` on the 10×10 extent gives a 2×2 grid of
4 cells. -/
theorem mkFeatureGridder_grid_dimensions_witness :
    samplePolicy5.cellSize = some 5 ∧ (0 : ℚ) < 5 ∧
      (mkFeatureGridder sampleBounds samplePolicy5 true).1.cellsX =
        max ⌈sampleBounds.width / (5 : ℚ)⌉ 1 ∧
      (mkFeatureGridder sampleBounds samplePolicy5 true).1.cellsY =
        max ⌈sampleBounds.height / (5 : ℚ)⌉ 1 ∧
      getNumCells (mkFeatureGridder sampleBounds samplePolicy5 true).1 =
        (mkFeatureGridder sampleBounds samplePolicy5 true).1.cellsX *
          (mkFeatureGridder sampleBounds samplePolicy5 true).1.cellsY :=
  ⟨rfl, by norm_num,
    mkFeatureGridder_grid_dimensions sampleBounds samplePolicy5 true 5 rfl
      (by norm_num)⟩

theorem centroidLoop_eq_filter (b : Bounds) (fs : List Feature) :
    centroidLoop b fs = fs.filter (centroidKeepSpec b) := by
  induction fs with
  | nil => rfl
  | cons f rest ih =>
    cases hgeo : f.geometry with
    | none =>
      simp only [centroidLoop, hgeo, List.filter_cons, centroidKeepSpec, ih]
    | some geo =>
      simp only [centroidLoop, hgeo, List.filter_cons, centroidKeepSpec, ih]
      rfl

/-- C1: under BY_CENTROID, for every valid cell index and every feature
list, `cullFeatureListToCell` keeps exactly the features that have a
geometry whose bounding-box center lies in the cell bounds under the
inclusive test (see `centroidKeepSpec`); features with no geometry are
removed. -/
theorem cull_by_centroid_spec (g : FeatureGridder) (hg : Bool)
    (eng : OverlayEngine) (st : EngineState) (i : ℤ) (b : Bounds)
    (features : List Feature) (hb : getCellBounds g i = some b)
    (ht : cullingTechniqueValue g.policy =
      CullingTechnique.CULL_BY_CENTROID) :
    (cullFeatureListToCell g hg eng i features st).2.1 =
      features.filter (centroidKeepSpec b) := by
  unfold cullFeatureListToCell
  rw [hb]
  dsimp only
  rw [if_pos ht]
  exact centroidLoop_eq_filter b features

/-- C1 witness: in cell 3 = `(5,5)-(10,10)` the feature centered at
`(6,6)` is kept and the geometry-less feature is removed. -/
theorem cull_by_centroid_spec_witness :
    getCellBounds sampleGridder 3 = some ⟨5, 5, 10, 10⟩ ∧
      cullingTechniqueValue sampleGridder.policy =
        CullingTechnique.CULL_BY_CENTROID ∧
      (cullFeatureListToCell sampleGridder true idEngine 3 [featA, featB]
          st0).2.1 = [featA] := by
  have ht : cullingTechniqueValue sampleGridder.policy =
      CullingTechnique.CULL_BY_CENTROID := by
    rw [sampleGridder_eq]; rfl
  refine ⟨sample_cell3, ht, ?_⟩
  rw [cull_by_centroid_spec sampleGridder true idEngine st0 3 ⟨5, 5, 10, 10⟩
    [featA, featB] sample_cell3 ht]
  norm_num [centroidKeepSpec, featA, featB, List.filter_cons]

theorem cropFeature_fst (eng : OverlayEngine) (f : Feature)
    (st : EngineState) : (cropFeature eng f st).1 = cropKeepSpec eng f := by
  unfold cropFeature cropKeepSpec importGeometry overlayOp exportGeometry
    allocGeom
  cases f.geometry with
  | none => rfl
  | some geo =>
    by_cases hi : eng.importOk geo = true
    · by_cases ho : eng.overlayOk geo = true
      · cases hex : eng.exported geo with
        | none => simp [hi, ho, hex]
        | some ng =>
          by_cases hv : ng.isValid = true <;> simp [hi, ho, hex, hv]
      · simp [hi, ho]
    · simp [hi]

theorem cropLoop_fst (eng : OverlayEngine) (fs : List Feature) :
    ∀ st : EngineState,
      (cropLoop eng fs st).1 = fs.filterMap (cropKeepSpec eng) := by
  induction fs with
  | nil => intro st; rfl
  | cons f rest ih =>
    intro st
    rw [List.filterMap_cons]
    unfold cropLoop
    have hcf := cropFeature_fst eng f st
    rcases h : cropFeature eng f st with ⟨res, st'⟩
    rw [h] at hcf
    dsimp only at hcf
    rw [← hcf]
    cases res with
    | some kept =>
      dsimp only
      rcases h2 : cropLoop eng rest st' with ⟨sv, st2⟩
      have h3 := ih st'
      rw [h2] at h3
      dsimp only at h3 ⊢
      rw [h3]
    | none =>
      dsimp only
      exact ih st'

/-- C6: under BY_CROPPING (GEOS present), for every valid cell index the
output list is the per-feature `filterMap` of `cropKeepSpec`: a feature
whose import fails, whose overlay throws or returns null, or whose
exported clip result is missing or invalid is dropped while processing
continues with the rest of the list, and a feature with a successful
overlay and a valid export is kept with its geometry replaced by the
clipped result. -/
theorem cull_by_cropping_spec (g : FeatureGridder) (eng : OverlayEngine)
    (st : EngineState) (i : ℤ) (b : Bounds) (features : List Feature)
    (hb : getCellBounds g i = some b)
    (ht : cullingTechniqueValue g.policy =
      CullingTechnique.CULL_BY_CROPPING) :
    (cullFeatureListToCell g true eng i features st).2.1 =
      features.filterMap (cropKeepSpec eng) := by
  unfold cullFeatureListToCell
  rw [hb]
  dsimp only
  rw [if_neg (by simp [ht]), if_pos rfl]
  rcases importGeometry eng (cellPolygon b) st with ⟨cg, st₁⟩
  dsimp only
  have h3 := cropLoop_fst eng features st₁
  rcases h2 : cropLoop eng features st₁ with ⟨sv, st₂⟩
  rw [h2] at h3
  dsimp only at h3 ⊢
  exact h3

/-- C6 witness: with an engine whose overlay succeeds and exports each
feature's own (valid) geometry, the feature with a geometry survives and
the geometry-less feature is dropped. -/
theorem cull_by_cropping_spec_witness :
    getCellBounds cropGridder 0 = some ⟨0, 0, 5, 5⟩ ∧
      cullingTechniqueValue cropGridder.policy =
        CullingTechnique.CULL_BY_CROPPING ∧
      (cullFeatureListToCell cropGridder true idEngine 0 [featA, featB]
          st0).2.1 = [featA] := by
  have ht : cullingTechniqueValue cropGridder.policy =
      CullingTechnique.CULL_BY_CROPPING := by
    rw [cropGridder_eq]; rfl
  refine ⟨crop_cell0, ht, ?_⟩
  rw [cull_by_cropping_spec cropGridder idEngine st0 0 ⟨0, 0, 5, 5⟩
    [featA, featB] crop_cell0 ht]
  rfl

/-- C9 is refuted by the code: the per-feature imported engine geometry
(`inGeom`, created at line 217) is never passed to `destroyGeometry`; the
source destroys only the overlay result (line 234) and the cell rectangle
(line 250).  Here the cell rectangle gets handle 0 and the single
feature's imported geometry gets handle 1; after the call handle 1 is
still live, so not every overlay-engine temporary was disposed of. -/
theorem crop_leaves_imported_geometry_live :
    ((cullFeatureListToCell cropGridder true noOverlayEngine 0 [featA]
        st0).2.2).live = [1] ∧
      ((cullFeatureListToCell cropGridder true noOverlayEngine 0 [featA]
          st0).2.2).live ≠ [] := by
  have hA : ((cullFeatureListToCell cropGridder true noOverlayEngine 0
      [featA] st0).2.2).live = [1] := by
    have ht : ¬ (cullingTechniqueValue cropGridder.policy =
        CullingTechnique.CULL_BY_CENTROID) := by
      rw [cropGridder_eq]; simp [cropPolicy5, cullingTechniqueValue]
    unfold cullFeatureListToCell
    rw [crop_cell0]
    dsimp only
    rw [if_neg ht, if_pos rfl]
    rfl
  exact ⟨hA, by rw [hA]; simp⟩

theorem zeroGridder_eq :
    zeroGridder =
      { inputBounds := sampleBounds, policy := zeroPolicy,
        cellsX := 1, cellsY := 1 } := by
  unfold zeroGridder mkFeatureGridder
  norm_num [zeroPolicy, cellSizeValue, cullingTechniqueValue, osgClampAbove]

theorem zero_cell0 :
    getCellBounds zeroGridder 0 = some ⟨0, 0, 0, 0⟩ := by
  rw [zeroGridder_eq]
  unfold getCellBounds
  rw [if_pos (by norm_num)]
  norm_num [zeroPolicy, cellSizeValue, osgClampBelow, sampleBounds, min_def]

/-- C5 counterexample: with `cellSize` explicitly set to the non-positive
value `0` on the extent `(0,0)-(10,10)` there is exactly one cell, but
its bounds are the degenerate rectangle `(0,0)-(0,0)`, not the full
extent: `getCellBounds` multiplies by `cellSize().value()` regardless of
direction, so a set non-positive value collapses the only cell. -/
theorem zero_cellSize_cell_not_full_extent :
    zeroPolicy.cellSize = some 0 ∧
      getNumCells zeroGridder = 1 ∧
      zeroGridder.inputBounds = sampleBounds ∧
      getCellBounds zeroGridder 0 = some ⟨0, 0, 0, 0⟩ ∧
      getCellBounds zeroGridder 0 ≠ some zeroGridder.inputBounds := by
  refine ⟨rfl, ?_, ?_, zero_cell0, ?_⟩
  · rw [zeroGridder_eq]; rfl
  · rw [zeroGridder_eq]
  · rw [zero_cell0, zeroGridder_eq]
    simp [sampleBounds]

/-- C5 amended: an unset or set non-positive `cellSize` still yields
exactly one cell, but only an *unset* `cellSize` makes that cell's bounds
equal the full extent (given extent dimensions at most `DBL_MAX`, the
unset default); a set non-positive `cellSize` yields the degenerate cell
exhibited by the counterexample. -/
theorem single_cell_amended (b : Bounds) (p : GriddingPolicy) (hg : Bool) :
    ((p.cellSize = none ∨ ∃ cs, p.cellSize = some cs ∧ cs ≤ 0) →
      getNumCells (mkFeatureGridder b p hg).1 = 1) ∧
    (p.cellSize = none → b.width ≤ DBL_MAX → b.height ≤ DBL_MAX →
      getCellBounds (mkFeatureGridder b p hg).1 0 = some b) := by
  constructor
  · intro hcs
    have hcond : ¬ (p.cellSize.isSome = true ∧ 0 < cellSizeValue p) := by
      rcases hcs with h | ⟨cs, hset, hle⟩
      · rw [h]; simp
      · rw [hset]
        rintro ⟨-, hpos⟩
        rw [cellSizeValue, hset] at hpos
        simp at hpos
        linarith
    rw [getNumCells, mkFeatureGridder_cellsX, mkFeatureGridder_cellsY,
      if_neg hcond, if_neg hcond]
    rfl
  · intro hset hw hh
    have hcond : ¬ (p.cellSize.isSome = true ∧ 0 < cellSizeValue p) := by
      rw [hset]; simp
    have hX : (mkFeatureGridder b p hg).1.cellsX = 1 := by
      rw [mkFeatureGridder_cellsX, if_neg hcond]; rfl
    have hY : (mkFeatureGridder b p hg).1.cellsY = 1 := by
      rw [mkFeatureGridder_cellsY, if_neg hcond]; rfl
    have hcsv : cellSizeValue (mkFeatureGridder b p hg).1.policy = DBL_MAX := by
      rw [cellSizeValue, mkFeatureGridder_cellSize, hset]; rfl
    unfold getCellBounds
    rw [if_pos ⟨le_refl 0, by rw [hX, hY]; norm_num⟩,
      mkFeatureGridder_inputBounds]
    simp only [Int.zero_emod, Int.zero_ediv, Int.cast_zero, mul_zero,
      add_zero, zero_add, mul_one, hcsv, osgClampBelow]
    rw [min_eq_right (by rw [Bounds.width] at hw; linarith),
      min_eq_right (by rw [Bounds.height] at hh; linarith)]

/-- C5 witness: the fully-unset policy on the `(0,0)-(10,10)` extent
yields one cell whose bounds are the whole extent. -/
theorem single_cell_amended_witness :
    unsetPolicy.cellSize = none ∧
      getNumCells unsetGridder = 1 ∧
      getCellBounds unsetGridder 0 = some sampleBounds := by
  refine ⟨rfl, ?_, ?_⟩
  · unfold unsetGridder
    exact (single_cell_amended sampleBounds unsetPolicy true).1 (Or.inl rfl)
  · unfold unsetGridder
    exact (single_cell_amended sampleBounds unsetPolicy true).2 rfl
      (by norm_num [sampleBounds, Bounds.width, DBL_MAX])
      (by norm_num [sampleBounds, Bounds.height, DBL_MAX])

/-- C4 counterexample: with `cellSize` set to the non-positive value `0`
the single cell collapses to the degenerate rectangle `(0,0)-(0,0)`
(see `zero_cell0`), so the point `(10,10)` of the extent lies in no
cell: the union of the cell rectangles does not cover the extent. -/
theorem grid_cells_counterexample :
    ¬ (cellsWithinExtent zeroGridder ∧ cellsCoverExtent zeroGridder) := by
  rintro ⟨-, hcov⟩
  obtain ⟨i, r, hir, hin⟩ := hcov 10 10 (by
    rw [zeroGridder_eq]
    norm_num [sampleBounds, Bounds.contains])
  rw [zeroGridder_eq] at hir
  unfold getCellBounds at hir
  by_cases hg : (0 ≤ i ∧
      i < ({ inputBounds := sampleBounds, policy := zeroPolicy,
             cellsX := 1, cellsY := 1 } : FeatureGridder).cellsX *
          ({ inputBounds := sampleBounds, policy := zeroPolicy,
             cellsX := 1, cellsY := 1 } : FeatureGridder).cellsY)
  · rw [if_pos hg] at hir
    injection hir with hr
    subst hr
    rw [Bounds.contains] at hin
    norm_num [zeroPolicy, cellSizeValue, osgClampBelow, sampleBounds,
      min_def] at hin
  · rw [if_neg hg] at hir
    exact Option.noConfusion hir

/-- One-dimensional covering step for the grid: for a strictly positive
cell size `cs` and `n ≥ 1` columns whose clamped union reaches `x1`,
every `t` in `[x0, x1]` falls in column
`[x0 + cs*x, min (x0 + cs*(x+1)) x1]` for some `0 ≤ x < n`. -/
theorem coverIndex (x0 x1 cs : ℚ) (n : ℤ) (hcs : 0 < cs) (hn : 1 ≤ n)
    (hw : x1 - x0 ≤ cs * n) (t : ℚ) (h0 : x0 ≤ t) (h1 : t ≤ x1) :
    ∃ x : ℤ, 0 ≤ x ∧ x < n ∧ x0 + cs * (x : ℚ) ≤ t ∧
      t ≤ min (x0 + cs * ((x : ℚ) + 1)) x1 := by
  have hd0 : 0 ≤ ⌊(t - x0) / cs⌋ := by
    apply Int.le_floor.mpr
    push_cast
    exact div_nonneg (by linarith) hcs.le
  by_cases hdn : ⌊(t - x0) / cs⌋ < n
  · refine ⟨⌊(t - x0) / cs⌋, hd0, hdn, ?_, ?_⟩
    · have hfl : ((⌊(t - x0) / cs⌋ : ℤ) : ℚ) ≤ (t - x0) / cs :=
        Int.floor_le _
      have := (le_div_iff₀ hcs).mp hfl
      linarith
    · refine le_min ?_ h1
      have hfl : (t - x0) / cs < (⌊(t - x0) / cs⌋ : ℚ) + 1 :=
        Int.lt_floor_add_one _
      have := (div_lt_iff₀ hcs).mp hfl
      linarith
  · push_neg at hdn
    have hnd : (n : ℚ) ≤ (t - x0) / cs :=
      le_trans (by exact_mod_cast hdn) (Int.floor_le _)
    have hcn : (n : ℚ) * cs ≤ t - x0 := (le_div_iff₀ hcs).mp hnd
    refine ⟨n - 1, by omega, by omega, ?_, ?_⟩
    · push_cast
      nlinarith
    · push_cast
      refine le_min ?_ h1
      nlinarith

/-- Containment half of the grid property, for any gridder with at least
one row and column (as the constructor's clamping guarantees) and a
non-negative effective cell size: each cell rectangle is inside the
input extent. -/
theorem cells_within_of_nonneg (g : FeatureGridder)
    (hcs : 0 ≤ cellSizeValue g.policy) (hX : 1 ≤ g.cellsX) :
    cellsWithinExtent g := by
  intro i r hir px py hpr
  unfold getCellBounds at hir
  split at hir
  case isFalse => exact Option.noConfusion hir
  case isTrue h =>
    obtain ⟨h0i, hlt⟩ := h
    injection hir with hr
    subst hr
    have hx0 : (0 : ℤ) ≤ i % g.cellsX := Int.emod_nonneg i (by omega)
    have hy0 : (0 : ℤ) ≤ i / g.cellsX := Int.ediv_nonneg h0i (by omega)
    obtain ⟨hp1, hp2, hp3, hp4⟩ := hpr
    have hmx : 0 ≤ cellSizeValue g.policy * ((i % g.cellsX : ℤ) : ℚ) :=
      mul_nonneg hcs (by exact_mod_cast hx0)
    have hmy : 0 ≤ cellSizeValue g.policy * ((i / g.cellsX : ℤ) : ℚ) :=
      mul_nonneg hcs (by exact_mod_cast hy0)
    dsimp only at hp1 hp2 hp3 hp4
    refine ⟨by linarith, ?_, by linarith, ?_⟩
    · exact le_trans hp2 (min_le_right _ _)
    · exact le_trans hp4 (min_le_right _ _)

/-- Coverage half of the grid property, for any gridder with positive
effective cell size, at least one row and column, and enough columns and
rows to span the extent (as the constructor's `ceil` guarantees): every
point of the extent lies in some cell rectangle. -/
theorem cells_cover_of (g : FeatureGridder)
    (hcs : 0 < cellSizeValue g.policy)
    (hX : 1 ≤ g.cellsX) (hY : 1 ≤ g.cellsY)
    (hw : g.inputBounds.width ≤ cellSizeValue g.policy * (g.cellsX : ℚ))
    (hh : g.inputBounds.height ≤ cellSizeValue g.policy * (g.cellsY : ℚ)) :
    cellsCoverExtent g := by
  intro px py hp
  obtain ⟨hp1, hp2, hp3, hp4⟩ := hp
  obtain ⟨x, hx0, hxn, hxl, hxu⟩ :=
    coverIndex g.inputBounds.xMin g.inputBounds.xMax
      (cellSizeValue g.policy) g.cellsX hcs hX
      (by rw [Bounds.width] at hw; linarith) px hp1 hp2
  obtain ⟨y, hy0, hyn, hyl, hyu⟩ :=
    coverIndex g.inputBounds.yMin g.inputBounds.yMax
      (cellSizeValue g.policy) g.cellsY hcs hY
      (by rw [Bounds.height] at hh; linarith) py hp3 hp4
  have hi0 : 0 ≤ y * g.cellsX + x := by
    have := mul_nonneg hy0 (by omega : (0 : ℤ) ≤ g.cellsX)
    omega
  have hilt : y * g.cellsX + x < g.cellsX * g.cellsY := by nlinarith
  have hmod : (y * g.cellsX + x) % g.cellsX = x := by
    rw [add_comm, mul_comm y g.cellsX, Int.add_mul_emod_self_left,
      Int.emod_eq_of_lt hx0 hxn]
  have hdiv : (y * g.cellsX + x) / g.cellsX = y := by
    rw [add_comm, mul_comm y g.cellsX,
      Int.add_mul_ediv_left x y (by omega : g.cellsX ≠ 0),
      Int.ediv_eq_zero_of_lt hx0 hxn, zero_add]
  have hb : getCellBounds g (y * g.cellsX + x) = some
      { xMin := g.inputBounds.xMin + cellSizeValue g.policy * (x : ℚ)
      , yMin := g.inputBounds.yMin + cellSizeValue g.policy * (y : ℚ)
      , xMax := min (g.inputBounds.xMin +
          cellSizeValue g.policy * ((x : ℚ) + 1)) g.inputBounds.xMax
      , yMax := min (g.inputBounds.yMin +
          cellSizeValue g.policy * ((y : ℚ) + 1)) g.inputBounds.yMax } := by
    unfold getCellBounds
    rw [if_pos ⟨hi0, hilt⟩]
    simp only [hmod, hdiv]
    rfl
  exact ⟨y * g.cellsX + x, _, hb, hxl, hxu, hyl, hyu⟩

/-- C4 amended: for every extent, and for policies whose `cellSize` is
either unset (with extent dimensions at most the `DBL_MAX` default) or
set strictly positive, every cell rectangle of the constructed gridder is
contained in the extent and the union of the cell rectangles covers the
extent with no gaps.  (A set non-positive `cellSize` falsifies the
original claim, see the counterexample.) -/
theorem grid_partition_amended (b : Bounds) (p : GriddingPolicy) (hg : Bool)
    (hcs : (p.cellSize = none ∧ b.width ≤ DBL_MAX ∧ b.height ≤ DBL_MAX) ∨
      (∃ cs, p.cellSize = some cs ∧ 0 < cs)) :
    cellsWithinExtent (mkFeatureGridder b p hg).1 ∧
    cellsCoverExtent (mkFeatureGridder b p hg).1 := by
  have hB : (mkFeatureGridder b p hg).1.inputBounds = b :=
    mkFeatureGridder_inputBounds b p hg
  have hcsv : cellSizeValue (mkFeatureGridder b p hg).1.policy =
      cellSizeValue p := by
    rw [cellSizeValue, cellSizeValue, mkFeatureGridder_cellSize]
  rcases hcs with ⟨hset, hwM, hhM⟩ | ⟨cs, hset, hpos⟩
  · have hcond : ¬ (p.cellSize.isSome = true ∧ 0 < cellSizeValue p) := by
      rw [hset]; simp
    have hX : (mkFeatureGridder b p hg).1.cellsX = 1 := by
      rw [mkFeatureGridder_cellsX, if_neg hcond]; rfl
    have hY : (mkFeatureGridder b p hg).1.cellsY = 1 := by
      rw [mkFeatureGridder_cellsY, if_neg hcond]; rfl
    have hDM : cellSizeValue p = DBL_MAX := by
      rw [cellSizeValue, hset]; rfl
    have hpos' : (0 : ℚ) < cellSizeValue (mkFeatureGridder b p hg).1.policy := by
      rw [hcsv, hDM]; norm_num [DBL_MAX]
    refine ⟨cells_within_of_nonneg _ hpos'.le (by rw [hX]), ?_⟩
    apply cells_cover_of _ hpos' (by rw [hX]) (by rw [hY])
    · rw [hB, hX, hcsv, hDM]
      push_cast
      linarith
    · rw [hB, hY, hcsv, hDM]
      push_cast
      linarith
  · have hvp : cellSizeValue p = cs := by rw [cellSizeValue, hset]; rfl
    have hcond : p.cellSize.isSome = true ∧ 0 < cellSizeValue p :=
      ⟨by rw [hset]; rfl, by rw [hvp]; exact hpos⟩
    have hX : (mkFeatureGridder b p hg).1.cellsX = max ⌈b.width / cs⌉ 1 := by
      rw [mkFeatureGridder_cellsX, if_pos hcond, hvp]; rfl
    have hY : (mkFeatureGridder b p hg).1.cellsY = max ⌈b.height / cs⌉ 1 := by
      rw [mkFeatureGridder_cellsY, if_pos hcond, hvp]; rfl
    have h1X : 1 ≤ (mkFeatureGridder b p hg).1.cellsX := by
      rw [hX]; exact le_max_right _ _
    have h1Y : 1 ≤ (mkFeatureGridder b p hg).1.cellsY := by
      rw [hY]; exact le_max_right _ _
    have hwX : b.width ≤ cs * ((max ⌈b.width / cs⌉ 1 : ℤ) : ℚ) := by
      have h1 : b.width / cs ≤ (⌈b.width / cs⌉ : ℚ) := Int.le_ceil _
      have h2 : ((⌈b.width / cs⌉ : ℤ) : ℚ) ≤ ((max ⌈b.width / cs⌉ 1 : ℤ) : ℚ) := by
        exact_mod_cast le_max_left _ _
      have := (div_le_iff₀ hpos).mp (le_trans h1 h2)
      linarith
    have hhY : b.height ≤ cs * ((max ⌈b.height / cs⌉ 1 : ℤ) : ℚ) := by
      have h1 : b.height / cs ≤ (⌈b.height / cs⌉ : ℚ) := Int.le_ceil _
      have h2 : ((⌈b.height / cs⌉ : ℤ) : ℚ) ≤
          ((max ⌈b.height / cs⌉ 1 : ℤ) : ℚ) := by
        exact_mod_cast le_max_left _ _
      have := (div_le_iff₀ hpos).mp (le_trans h1 h2)
      linarith
    refine ⟨cells_within_of_nonneg _ (by rw [hcsv, hvp]; exact hpos.le) h1X, ?_⟩
    apply cells_cover_of _ (by rw [hcsv, hvp]; exact hpos) h1X h1Y
    · rw [hB, hcsv, hvp, hX]; exact hwX
    · rw [hB, hcsv, hvp, hY]; exact hhY

/-- C4 witness: on the `(0,0)-(10,10)` extent with `cellSize = 5`, the
2×2 grid's cells all sit inside the extent and together cover it. -/
theorem grid_partition_amended_witness :
    samplePolicy5.cellSize = some 5 ∧ (0 : ℚ) < 5 ∧
      cellsWithinExtent (mkFeatureGridder sampleBounds samplePolicy5 true).1 ∧
      cellsCoverExtent (mkFeatureGridder sampleBounds samplePolicy5 true).1 := by
  have h := grid_partition_amended sampleBounds samplePolicy5 true
    (Or.inr ⟨5, rfl, by norm_num⟩)
  exact ⟨rfl, by norm_num, h.1, h.2⟩

end FeatureGridderModel
